import Mathlib

-- Shallow embedding of the two game variants in this repository:
--   src/clientv0sml.py      (namespace V0)
--   src/deltamarioland4k.py (namespace Delta)
-- Positions, velocities and sizes are modelled as exact rationals; the
-- Python int fields (lives, coins, invincible, direction, death_timer)
-- as integers.  Only the simulation state is embedded; pixel output and
-- audio calls are irrelevant to the properties below and are omitted.

-- Game constants shared by both files (lines 22-27 resp. 24-29).
def GB_WIDTH : ℚ := 160

def GB_HEIGHT : ℚ := 144

def GRAVITY : ℚ := 0.3

def PLAYER_SPEED : ℚ := 1.5

def JUMP_STRENGTH : ℚ := 4.5

-- SCROLL_THRESH = GB_WIDTH // 3 (Python floor division: 160 // 3 = 53).
def SCROLL_THRESH : ℚ := 53

/-- Axis-aligned box: the (x, y, width, height) quadruple every entity
(Player, Platform, Enemy, Coin, Goal) exposes to the collision test. -/
structure Box where
  x : ℚ
  y : ℚ
  width : ℚ
  height : ℚ
  deriving DecidableEq

/-- The collision primitive, `Player.collision` in both files
(clientv0sml.py lines 121-125, deltamarioland4k.py lines 241-245):
four strict inequalities. -/
def collision (a b : Box) : Prop :=
  a.x < b.x + b.width ∧ a.x + a.width > b.x ∧
  a.y < b.y + b.height ∧ a.y + a.height > b.y

instance (a b : Box) : Decidable (collision a b) := by
  unfold collision
  infer_instance

/-- Claim C1: for rectangles a, b the collision test holds iff
a.x < b.x+b.width, a.x+a.width > b.x, a.y < b.y+b.height and
a.y+a.height > b.y; consequently it is symmetric, and two rectangles
that are exactly edge-adjacent (a.x+a.width = b.x) never collide. -/
theorem C1_collision_iff_symm_edge (a b : Box) :
    (collision a b ↔
      (a.x < b.x + b.width ∧ a.x + a.width > b.x ∧
       a.y < b.y + b.height ∧ a.y + a.height > b.y)) ∧
    (collision a b ↔ collision b a) ∧
    (a.x + a.width = b.x → ¬ collision a b) := by
  refine ⟨Iff.rfl, ?_, ?_⟩
  · unfold collision
    constructor
    · rintro ⟨h1, h2, h3, h4⟩
      exact ⟨h2, h1, h4, h3⟩
    · rintro ⟨h1, h2, h3, h4⟩
      exact ⟨h2, h1, h4, h3⟩
  · intro hedge hc
    have h2 := hc.2.1
    rw [hedge] at h2
    exact lt_irrefl _ h2

/-- Witness for C1 at a concrete edge-adjacent pair. -/
theorem C1_collision_iff_symm_edge_w :
    ¬ collision ⟨0, 0, 8, 8⟩ ⟨8, 0, 8, 8⟩ :=
  (C1_collision_iff_symm_edge ⟨0, 0, 8, 8⟩ ⟨8, 0, 8, 8⟩).2.2 (by simp)

/-- Patrol enemy, identical in both files except that the delta variant
additionally stores an enemy_type tag which only scales the initial
speed (`0.5 + enemy_type * 0.2`) and selects the sprite; `Enemy.move`
never reads it, so a single structure serves both embeddings. -/
structure Enemy where
  x : ℚ
  y : ℚ
  width : ℚ
  height : ℚ
  direction : ℤ
  speed : ℚ
  active : Bool
  animation_frame : ℚ
  deriving DecidableEq

def Enemy.box (e : Enemy) : Box := ⟨e.x, e.y, e.width, e.height⟩

/-- Collectible coin, identical in both files. -/
structure Coin where
  x : ℚ
  y : ℚ
  width : ℚ
  height : ℚ
  animation_frame : ℚ
  deriving DecidableEq

def Coin.box (c : Coin) : Box := ⟨c.x, c.y, c.width, c.height⟩

/-- One step of the platform-edge scan inside `Enemy.move`
(clientv0sml.py lines 246-254, deltamarioland4k.py lines 403-411):
carries the enemy and the running on_platform flag. -/
def edgeStep (ea : Enemy × Bool) (p : Box) : Enemy × Bool :=
  let e := ea.1
  if e.x + e.width > p.x ∧ e.x < p.x + p.width ∧
      abs (e.y + e.height - p.y) < 2 then
    if (e.direction < 0 ∧ e.x ≤ p.x) ∨
        (e.direction > 0 ∧ e.x + e.width ≥ p.x + p.width) then
      ({e with direction := -e.direction}, true)
    else (e, true)
  else (e, ea.2)

/-- Enemy patrol update, `Enemy.move` (clientv0sml.py lines 235-257,
deltamarioland4k.py lines 392-414): advance by direction*speed, wrap
the animation phase at 2, flip at platform edges, and flip as fallback
when standing on no platform. -/
def Enemy.move (e : Enemy) (platforms : List Box) : Enemy :=
  if e.active then
    let e1 := {e with x := e.x + e.direction * e.speed}
    let af := e1.animation_frame + 0.1
    let e2 := {e1 with animation_frame := if af ≥ 2 then 0 else af}
    let r := platforms.foldl edgeStep (e2, false)
    if r.2 then r.1 else {r.1 with direction := -r.1.direction}
  else e

/-- Game states of the `Game` state machine in both files. -/
inductive GameState where
  | menu
  | level_select
  | playing
  | game_over
  | victory
  deriving DecidableEq

/-- The slice of the `Game` object that the per-frame victory and
game-over checks read and write. -/
structure GameData where
  state : GameState
  current_level : ℕ
  level_unlocked : List Bool
  deriving DecidableEq

/-- Camera recomputation performed each playing frame
(clientv0sml.py lines 551-556, deltamarioland4k.py lines 762-767):
dead-zone follow then clamp into [0, level_width - GB_WIDTH]. -/
def cameraScroll (player_x scroll_x level_width : ℚ) : ℚ :=
  let s1 := if player_x - scroll_x > GB_WIDTH - SCROLL_THRESH then
      player_x - (GB_WIDTH - SCROLL_THRESH)
    else scroll_x
  let s2 := if player_x - s1 < SCROLL_THRESH then player_x - SCROLL_THRESH else s1
  max 0 (min s2 (level_width - GB_WIDTH))

-- Level widths fixed by Level.__init__: 640 in clientv0sml.py line 369,
-- 640 + level_num * 160 in deltamarioland4k.py line 548.
def V0_level_width : ℚ := 640

def Delta_level_width (level_num : ℕ) : ℚ := 640 + level_num * 160

namespace V0

/-- Player state of clientv0sml.py (Player.__init__, lines 46-57). -/
structure Player where
  x : ℚ
  y : ℚ
  width : ℚ
  height : ℚ
  vel_y : ℚ
  jumping : Bool
  direction : ℤ
  animation_frame : ℚ
  invincible : ℤ
  lives : ℤ
  coins : ℤ
  active : Bool
  deriving DecidableEq

def Player.box (s : Player) : Box := ⟨s.x, s.y, s.width, s.height⟩

/-- Horizontal input: `self.x += dx` plus facing/animation bookkeeping
(Player.move lines 63-69). -/
def inputStep (dx : ℚ) (s : Player) : Player :=
  let s1 := {s with x := s.x + dx}
  if dx ≠ 0 then
    let af := s1.animation_frame + 0.2
    {s1 with direction := if dx > 0 then 1 else -1,
             animation_frame := if af ≥ 2 then 0 else af}
  else s1

/-- Horizontal platform resolution for one platform (lines 72-77). -/
def horizStep (dx : ℚ) (s : Player) (p : Box) : Player :=
  if collision s.box p then
    if dx > 0 then {s with x := p.x - s.width} else {s with x := p.x + p.width}
  else s

def horizPhase (dx : ℚ) (s : Player) (ps : List Box) : Player :=
  ps.foldl (horizStep dx) s

/-- Gravity: `vel_y += GRAVITY; y += vel_y` (lines 80-81). -/
def gravityStep (s : Player) : Player :=
  let s1 := {s with vel_y := s.vel_y + GRAVITY}
  {s1 with y := s1.y + s1.vel_y}

/-- Vertical platform resolution for one platform (lines 85-94; the
local on_ground flag is never read afterwards and is omitted). -/
def vertStep (s : Player) (p : Box) : Player :=
  if collision s.box p then
    if s.vel_y > 0 then {s with y := p.y - s.height, vel_y := 0, jumping := false}
    else if s.vel_y < 0 then {s with y := p.y + p.height, vel_y := 0}
    else s
  else s

def vertPhase (s : Player) (ps : List Box) : Player :=
  ps.foldl vertStep s

/-- The state reached just before vertical platform resolution:
horizontal input, horizontal resolution, then gravity. -/
def preVertical (s : Player) (dx : ℚ) (platforms : List Box) : Player :=
  gravityStep (horizPhase dx (inputStep dx s) platforms)

/-- Enemy-contact handling for one enemy (lines 97-109). -/
def enemyStep (s : Player) (e : Enemy) : Player × Enemy :=
  if e.active ∧ collision s.box e.box then
    if s.vel_y > 0 ∧ s.y < e.y then
      ({s with vel_y := -JUMP_STRENGTH * 0.6, coins := s.coins + 1},
       {e with active := false})
    else if s.invincible ≤ 0 then
      let s1 := {s with invincible := 60, lives := s.lives - 1}
      (if s1.lives ≤ 0 then {s1 with active := false} else s1, e)
    else (s, e)
  else (s, e)

def enemyPhase (s : Player) : List Enemy → Player × List Enemy
  | [] => (s, [])
  | e :: es =>
    let pe := enemyStep s e
    let r := enemyPhase pe.1 es
    (r.1, pe.2 :: r.2)

/-- Coin collection (lines 112-115): Python iterates over the snapshot
`coins[:]` while removing picked coins from the live list. -/
def coinLoop (s : Player) : List Coin → List Coin → Player × List Coin
  | [], live => (s, live)
  | c :: cs, live =>
    if collision s.box c.box then
      coinLoop {s with coins := s.coins + 1} cs (live.erase c)
    else coinLoop s cs live

/-- Bounds check (lines 118-119). -/
def boundsStep (s : Player) : Player :=
  if s.y > GB_HEIGHT then {s with active := false} else s

/-- Full update tick, `Player.move` of clientv0sml.py (lines 59-119).
Returns the updated player together with the enemy and coin lists,
which Python mutates in place. -/
def Player.move (s : Player) (dx : ℚ) (platforms : List Box)
    (enemies : List Enemy) (coins : List Coin) :
    Player × List Enemy × List Coin :=
  if s.active then
    let s1 := vertPhase (preVertical s dx platforms) platforms
    let pe := enemyPhase s1 enemies
    let pc := coinLoop pe.1 coins coins
    (boundsStep pc.1, pe.2, pc.2)
  else (s, enemies, coins)

/-- State effect of `Player.draw` (lines 132-139) on the player: the
invincibility blink bookkeeping.  All other work in draw writes pixels
only. -/
def Player.draw_update (s : Player) : Player :=
  if s.active then
    if s.invincible > 0 then
      if s.invincible % 6 < 3 then s
      else {s with invincible := s.invincible - 1}
    else s
  else s

/-- Victory and game-over checks executed every frame while the state is
playing (Game.run lines 558-567): runs after player and enemy updates. -/
def stateCheck (g : GameData) (pl : Player) (goal : Box) : GameData :=
  let g1 :=
    if collision pl.box goal then
      let lu1 := g.level_unlocked.set (g.current_level - 1) true
      let lu2 := if g.current_level < 3 then lu1.set g.current_level true else lu1
      {g with level_unlocked := lu2, state := GameState.victory}
    else g
  if pl.active then g1 else {g1 with state := GameState.game_over}

end V0

namespace Delta

/-- Player state of deltamarioland4k.py (Player.__init__, lines 138-152):
the clientv0sml fields plus power_up, dying and death_timer. -/
structure Player where
  x : ℚ
  y : ℚ
  width : ℚ
  height : ℚ
  vel_y : ℚ
  jumping : Bool
  direction : ℤ
  animation_frame : ℚ
  invincible : ℤ
  lives : ℤ
  coins : ℤ
  active : Bool
  power_up : Bool
  dying : Bool
  death_timer : ℤ
  deriving DecidableEq

def Player.box (s : Player) : Box := ⟨s.x, s.y, s.width, s.height⟩

/-- Death-animation branch of Player.move (lines 159-170). -/
def dyingStep (s : Player) : Player :=
  let s1 := {s with death_timer := s.death_timer + 1}
  let s2 := {s1 with vel_y := s1.vel_y + GRAVITY * 0.5}
  let s3 := {s2 with y := s2.y + s2.vel_y}
  let s4 := {s3 with animation_frame := s3.animation_frame + 0.5}
  if s4.death_timer > 60 ∨ s4.y > GB_HEIGHT + 20 then {s4 with active := false}
  else s4

/-- Horizontal input with the power-up speed multiplier (lines 172-179). -/
def inputStep (dx : ℚ) (s : Player) : Player :=
  let s1 := {s with x := s.x + dx * (if s.power_up then 1.5 else 1.0)}
  if dx ≠ 0 then
    let af := s1.animation_frame + 0.2
    {s1 with direction := if dx > 0 then 1 else -1,
             animation_frame := if af ≥ 2 then 0 else af}
  else s1

/-- Horizontal platform resolution for one platform (lines 182-187). -/
def horizStep (dx : ℚ) (s : Player) (p : Box) : Player :=
  if collision s.box p then
    if dx > 0 then {s with x := p.x - s.width} else {s with x := p.x + p.width}
  else s

def horizPhase (dx : ℚ) (s : Player) (ps : List Box) : Player :=
  ps.foldl (horizStep dx) s

/-- Gravity: `vel_y += GRAVITY; y += vel_y` (lines 190-191). -/
def gravityStep (s : Player) : Player :=
  let s1 := {s with vel_y := s.vel_y + GRAVITY}
  {s1 with y := s1.y + s1.vel_y}

/-- Vertical platform resolution for one platform (lines 195-204). -/
def vertStep (s : Player) (p : Box) : Player :=
  if collision s.box p then
    if s.vel_y > 0 then {s with y := p.y - s.height, vel_y := 0, jumping := false}
    else if s.vel_y < 0 then {s with y := p.y + p.height, vel_y := 0}
    else s
  else s

def vertPhase (s : Player) (ps : List Box) : Player :=
  ps.foldl vertStep s

/-- The state reached just before vertical platform resolution. -/
def preVertical (s : Player) (dx : ℚ) (platforms : List Box) : Player :=
  gravityStep (horizPhase dx (inputStep dx s) platforms)

/-- Enemy-contact handling for one enemy (lines 207-223): fatal damage
starts the dying animation with a small upward hop instead of
deactivating. -/
def enemyStep (s : Player) (e : Enemy) : Player × Enemy :=
  if e.active ∧ collision s.box e.box then
    if s.vel_y > 0 ∧ s.y < e.y then
      ({s with vel_y := -JUMP_STRENGTH * 0.6, coins := s.coins + 1},
       {e with active := false})
    else if s.invincible ≤ 0 then
      let s1 := {s with invincible := 60, lives := s.lives - 1}
      (if s1.lives ≤ 0 then
        {s1 with dying := true, vel_y := -JUMP_STRENGTH * 0.5}
       else s1, e)
    else (s, e)
  else (s, e)

def enemyPhase (s : Player) : List Enemy → Player × List Enemy
  | [] => (s, [])
  | e :: es =>
    let pe := enemyStep s e
    let r := enemyPhase pe.1 es
    (r.1, pe.2 :: r.2)

/-- Effect of picking up one coin (lines 229-233): increment the count
and set power_up every 10th coin. -/
def coinPickup (s : Player) : Player :=
  let s1 := {s with coins := s.coins + 1}
  if s1.coins % 10 = 0 then {s1 with power_up := true} else s1

/-- Coin collection (lines 226-233): iterate over the snapshot
`coins[:]` while removing picked coins from the live list. -/
def coinLoop (s : Player) : List Coin → List Coin → Player × List Coin
  | [], live => (s, live)
  | c :: cs, live =>
    if collision s.box c.box then
      coinLoop (coinPickup s) cs (live.erase c)
    else coinLoop s cs live

/-- Bounds check (lines 236-239): start the dying animation instead of
deactivating. -/
def boundsStep (s : Player) : Player :=
  if s.y > GB_HEIGHT then
    if s.dying then s else {s with dying := true}
  else s

/-- Full update tick, `Player.move` of deltamarioland4k.py
(lines 154-239). -/
def Player.move (s : Player) (dx : ℚ) (platforms : List Box)
    (enemies : List Enemy) (coins : List Coin) :
    Player × List Enemy × List Coin :=
  if s.active then
    if s.dying then (dyingStep s, enemies, coins)
    else
      let s1 := vertPhase (preVertical s dx platforms) platforms
      let pe := enemyPhase s1 enemies
      let pc := coinLoop pe.1 coins coins
      (boundsStep pc.1, pe.2, pc.2)
  else (s, enemies, coins)

/-- State effect of `Player.draw` (lines 254-261) on the player: the
invincibility blink bookkeeping, skipped while dying. -/
def Player.draw_update (s : Player) : Player :=
  if ¬ s.active ∧ ¬ s.dying then s
  else if s.invincible > 0 ∧ ¬ s.dying then
    if s.invincible % 6 < 3 then s
    else {s with invincible := s.invincible - 1}
  else s

/-- Victory and game-over checks executed every frame while the state is
playing (Game.run lines 769-779): the game-over transition additionally
requires the dying flag to be clear. -/
def stateCheck (g : GameData) (pl : Player) (goal : Box) : GameData :=
  let g1 :=
    if collision pl.box goal then
      let lu1 := g.level_unlocked.set (g.current_level - 1) true
      let lu2 := if g.current_level < 5 then lu1.set g.current_level true else lu1
      {g with level_unlocked := lu2, state := GameState.victory}
    else g
  if ¬ pl.active ∧ ¬ pl.dying then {g1 with state := GameState.game_over} else g1

end Delta

/-- Claim C5: after every per-frame camera recomputation in the playing
state the scroll offset satisfies 0 <= scroll <= level_width - GB_WIDTH,
for every player x position; the level widths of both variants satisfy
the needed bound GB_WIDTH <= level_width. -/
theorem C5_camera_scroll_clamped :
    (∀ player_x scroll_x level_width : ℚ, GB_WIDTH ≤ level_width →
      0 ≤ cameraScroll player_x scroll_x level_width ∧
      cameraScroll player_x scroll_x level_width ≤ level_width - GB_WIDTH) ∧
    GB_WIDTH ≤ V0_level_width ∧
    (∀ level_num : ℕ, GB_WIDTH ≤ Delta_level_width level_num) := by
  refine ⟨?_, by norm_num [GB_WIDTH, V0_level_width], ?_⟩
  · intro player_x scroll_x level_width h
    unfold cameraScroll
    exact ⟨le_max_left 0 _, max_le (sub_nonneg.mpr h) (min_le_right _ _)⟩
  · intro level_num
    unfold GB_WIDTH Delta_level_width
    have h : (0:ℚ) ≤ (level_num : ℚ) * 160 := by positivity
    linarith

/-- Witness for C5 at a concrete camera recomputation. -/
theorem C5_camera_scroll_clamped_w :
    0 ≤ cameraScroll 300 0 640 ∧ cameraScroll 300 0 640 ≤ 640 - GB_WIDTH :=
  C5_camera_scroll_clamped.1 300 0 640 (by decide)

/-- Claim C8: an active enemy placed exactly at its platform's left edge
(enemy.x = p.x) moving left (direction = -1), standing on that platform
(vertical distance of its bottom to the platform top below 2), has its
direction flipped to +1 by one update tick.  The platform list is the
platform the enemy patrols. -/
theorem C8_enemy_left_edge_flip (e : Enemy) (p : Box)
    (hact : e.active = true) (hdir : e.direction = -1) (hx : e.x = p.x)
    (hspeed : 0 < e.speed) (hsw : e.speed < e.width) (hpw : 0 < p.width)
    (hy : abs (e.y + e.height - p.y) < 2) :
    (e.move [p]).direction = 1 := by
  have hxeq : e.x + (e.direction : ℚ) * e.speed = p.x - e.speed := by
    rw [hx, hdir]
    push_cast
    ring
  have hc1 : p.x - e.speed + e.width > p.x := by linarith
  have hc2 : p.x - e.speed < p.x + p.width := by linarith
  have hflip : p.x - e.speed ≤ p.x := by linarith
  have hdneg : e.direction < 0 := by
    rw [hdir]
    decide
  have hcond : p.x - e.speed + e.width > p.x ∧ p.x - e.speed < p.x + p.width ∧
      abs (e.y + e.height - p.y) < 2 := ⟨hc1, hc2, hy⟩
  have hedge : (e.direction < 0 ∧ p.x - e.speed ≤ p.x) ∨
      (e.direction > 0 ∧ p.x - e.speed + e.width ≥ p.x + p.width) :=
    Or.inl ⟨hdneg, hflip⟩
  unfold Enemy.move edgeStep
  rw [hact]
  simp only [if_true, List.foldl_cons, List.foldl_nil, hxeq]
  rw [if_pos hcond, if_pos hedge]
  simp [hdir]

-- Helper numeric facts for concrete witnesses (rational arithmetic does
-- not kernel-reduce, so these are discharged by norm_num once here).
theorem abs_concrete_lt_two : |(20:ℚ) + 8 - 28| < 2 := by norm_num

/-- Witness for C8: a concrete goomba at the left edge of a platform. -/
theorem C8_enemy_left_edge_flip_w :
    ((⟨10, 20, 8, 8, -1, 1, true, 0⟩ : Enemy).move [⟨10, 28, 16, 16⟩]).direction = 1 :=
  C8_enemy_left_edge_flip ⟨10, 20, 8, 8, -1, 1, true, 0⟩ ⟨10, 28, 16, 16⟩
    rfl rfl rfl (by decide) (by decide) (by decide) abs_concrete_lt_two

/-- Claim C3: for an active enemy overlapping the player during the
enemy-contact step, a falling player whose top is above the enemy's top
stomps: the enemy is deactivated, vel_y becomes -JUMP_STRENGTH*0.6, the
coin count is incremented and lives are unchanged; any other overlap
while not invincible sets the invincibility countdown to 60 and
decrements lives by exactly 1.  Stated for both variants. -/
theorem C3_stomp_and_damage :
    (∀ (s : V0.Player) (e : Enemy), e.active = true → collision s.box e.box →
      ((s.vel_y > 0 ∧ s.y < e.y) →
        ((V0.enemyStep s e).2.active = false ∧
         (V0.enemyStep s e).1.vel_y = -JUMP_STRENGTH * 0.6 ∧
         (V0.enemyStep s e).1.coins = s.coins + 1 ∧
         (V0.enemyStep s e).1.lives = s.lives)) ∧
      (¬ (s.vel_y > 0 ∧ s.y < e.y) → s.invincible ≤ 0 →
        ((V0.enemyStep s e).1.invincible = 60 ∧
         (V0.enemyStep s e).1.lives = s.lives - 1))) ∧
    (∀ (s : Delta.Player) (e : Enemy), e.active = true → collision s.box e.box →
      ((s.vel_y > 0 ∧ s.y < e.y) →
        ((Delta.enemyStep s e).2.active = false ∧
         (Delta.enemyStep s e).1.vel_y = -JUMP_STRENGTH * 0.6 ∧
         (Delta.enemyStep s e).1.coins = s.coins + 1 ∧
         (Delta.enemyStep s e).1.lives = s.lives)) ∧
      (¬ (s.vel_y > 0 ∧ s.y < e.y) → s.invincible ≤ 0 →
        ((Delta.enemyStep s e).1.invincible = 60 ∧
         (Delta.enemyStep s e).1.lives = s.lives - 1))) := by
  constructor
  · intro s e hea hcol
    have hcond : e.active = true ∧ collision s.box e.box := ⟨hea, hcol⟩
    constructor
    · intro hst
      unfold V0.enemyStep
      rw [if_pos hcond, if_pos hst]
      exact ⟨rfl, rfl, rfl, rfl⟩
    · intro hnst hinv
      unfold V0.enemyStep
      rw [if_pos hcond, if_neg hnst, if_pos hinv]
      by_cases hl : s.lives - 1 ≤ 0 <;> simp [hl]
  · intro s e hea hcol
    have hcond : e.active = true ∧ collision s.box e.box := ⟨hea, hcol⟩
    constructor
    · intro hst
      unfold Delta.enemyStep
      rw [if_pos hcond, if_pos hst]
      exact ⟨rfl, rfl, rfl, rfl⟩
    · intro hnst hinv
      unfold Delta.enemyStep
      rw [if_pos hcond, if_neg hnst, if_pos hinv]
      by_cases hl : s.lives - 1 ≤ 0 <;> simp [hl]

theorem w_overlap_low : collision (⟨0, 0, 8, 8⟩ : Box) (⟨0, 4, 8, 8⟩ : Box) := by
  norm_num [collision]

/-- Witness for C3: a concrete stomp in the first variant and a concrete
damage contact in the extended variant. -/
theorem C3_stomp_and_damage_w :
    ((V0.enemyStep ⟨0, 0, 8, 8, 1, false, 1, 0, 0, 3, 0, true⟩
        ⟨0, 4, 8, 8, -1, 1, true, 0⟩).2.active = false ∧
     (V0.enemyStep ⟨0, 0, 8, 8, 1, false, 1, 0, 0, 3, 0, true⟩
        ⟨0, 4, 8, 8, -1, 1, true, 0⟩).1.vel_y = -JUMP_STRENGTH * 0.6 ∧
     (V0.enemyStep ⟨0, 0, 8, 8, 1, false, 1, 0, 0, 3, 0, true⟩
        ⟨0, 4, 8, 8, -1, 1, true, 0⟩).1.coins = 0 + 1 ∧
     (V0.enemyStep ⟨0, 0, 8, 8, 1, false, 1, 0, 0, 3, 0, true⟩
        ⟨0, 4, 8, 8, -1, 1, true, 0⟩).1.lives = 3) ∧
    ((Delta.enemyStep ⟨0, 0, 8, 8, 0, false, 1, 0, 0, 3, 0, true, false, false, 0⟩
        ⟨0, 4, 8, 8, -1, 1, true, 0⟩).1.invincible = 60 ∧
     (Delta.enemyStep ⟨0, 0, 8, 8, 0, false, 1, 0, 0, 3, 0, true, false, false, 0⟩
        ⟨0, 4, 8, 8, -1, 1, true, 0⟩).1.lives = 3 - 1) :=
  ⟨(C3_stomp_and_damage.1 ⟨0, 0, 8, 8, 1, false, 1, 0, 0, 3, 0, true⟩
      ⟨0, 4, 8, 8, -1, 1, true, 0⟩ rfl w_overlap_low).1 (by decide),
   (C3_stomp_and_damage.2 ⟨0, 0, 8, 8, 0, false, 1, 0, 0, 3, 0, true, false, false, 0⟩
      ⟨0, 4, 8, 8, -1, 1, true, 0⟩ rfl w_overlap_low).2 (by decide) (by decide)⟩

/-- Counterexample to claim C9: a pickup that makes the coin count a
multiple of 10 while the power-up flag is already set leaves the flag
true; the claim demands it be toggled to false. -/
theorem C9_counterexample :
    (Delta.coinLoop ⟨0, 0, 8, 8, 0, false, 1, 0, 0, 3, 9, true, true, false, 0⟩
        [⟨0, 0, 8, 8, 0⟩] [⟨0, 0, 8, 8, 0⟩]).1.coins = 10 ∧
    (10 : ℤ) % 10 = 0 ∧
    (⟨0, 0, 8, 8, 0, false, 1, 0, 0, 3, 9, true, true, false, 0⟩ :
        Delta.Player).power_up = true ∧
    (Delta.coinLoop ⟨0, 0, 8, 8, 0, false, 1, 0, 0, 3, 9, true, true, false, 0⟩
        [⟨0, 0, 8, 8, 0⟩] [⟨0, 0, 8, 8, 0⟩]).1.power_up = true := by
  norm_num [Delta.coinLoop, Delta.coinPickup, collision, Delta.Player.box, Coin.box,
    List.erase_cons_head]

/-- Claim C9 as amended: every pickup that makes the coin count a
multiple of 10 sets the power-up flag to true (rather than toggling it);
every other pickup leaves the flag unchanged. -/
theorem C9_amended_power_up (s : Delta.Player) :
    (Delta.coinPickup s).coins = s.coins + 1 ∧
    ((s.coins + 1) % 10 = 0 → (Delta.coinPickup s).power_up = true) ∧
    ((s.coins + 1) % 10 ≠ 0 → (Delta.coinPickup s).power_up = s.power_up) := by
  unfold Delta.coinPickup
  by_cases h : (s.coins + 1) % 10 = 0 <;> simp [h]

/-- Witness for C9 as amended: the 10th coin powers the player up. -/
theorem C9_amended_power_up_w :
    (Delta.coinPickup ⟨0, 0, 8, 8, 0, false, 1, 0, 0, 3, 9, true, false, false, 0⟩).power_up
      = true :=
  (C9_amended_power_up ⟨0, 0, 8, 8, 0, false, 1, 0, 0, 3, 9, true, false, false, 0⟩).2.1
    (by decide)

/-- Counterexample to claim C6: a playing frame in which the player
overlaps the Goal while inactive does not end in the victory state: the
game-over check that runs immediately afterwards overwrites it. -/
theorem C6_counterexample :
    collision (⟨600, 96, 8, 8, 0, false, 1, 0, 0, 0, 0, false⟩ : V0.Player).box
      ⟨600, 96, 16, 32⟩ ∧
    (V0.stateCheck ⟨GameState.playing, 1, [true, false, false]⟩
      ⟨600, 96, 8, 8, 0, false, 1, 0, 0, 0, 0, false⟩ ⟨600, 96, 16, 32⟩).state =
      GameState.game_over ∧
    GameState.game_over ≠ GameState.victory := by
  refine ⟨by norm_num [collision, V0.Player.box], ?_, by decide⟩
  norm_num [V0.stateCheck, collision, V0.Player.box]

/-- Claim C6 as amended: whenever the state is playing and the player
overlaps the Goal during the victory check, the current level's unlocked
flag is set and, if the current level is not the final one, the next
level's flag is set as well — on every such frame, the flags being
written before the state can be overwritten; the frame ends in the
victory state provided the player has not simultaneously triggered the
game-over condition (first variant: player still active; extended
variant: player active or dying). -/
theorem C6_amended_goal_victory :
    (∀ (g : GameData) (pl : V0.Player) (goal : Box),
      collision pl.box goal → 1 ≤ g.current_level →
      ((g.current_level - 1 < g.level_unlocked.length →
         ((V0.stateCheck g pl goal).level_unlocked[g.current_level - 1]? = some true)) ∧
       (g.current_level < 3 → g.current_level < g.level_unlocked.length →
         ((V0.stateCheck g pl goal).level_unlocked[g.current_level]? = some true)) ∧
       (pl.active = true → (V0.stateCheck g pl goal).state = GameState.victory))) ∧
    (∀ (g : GameData) (pl : Delta.Player) (goal : Box),
      collision pl.box goal → 1 ≤ g.current_level →
      ((g.current_level - 1 < g.level_unlocked.length →
         ((Delta.stateCheck g pl goal).level_unlocked[g.current_level - 1]? = some true)) ∧
       (g.current_level < 5 → g.current_level < g.level_unlocked.length →
         ((Delta.stateCheck g pl goal).level_unlocked[g.current_level]? = some true)) ∧
       (pl.active = true ∨ pl.dying = true →
         (Delta.stateCheck g pl goal).state = GameState.victory))) := by
  constructor
  · intro g pl goal hcol hcl
    have hne : g.current_level ≠ g.current_level - 1 := by omega
    have hlu : (V0.stateCheck g pl goal).level_unlocked =
        (if g.current_level < 3 then
          (g.level_unlocked.set (g.current_level - 1) true).set g.current_level true
        else g.level_unlocked.set (g.current_level - 1) true) := by
      unfold V0.stateCheck
      by_cases ha : pl.active = true <;> simp [hcol, ha]
    refine ⟨?_, ?_, ?_⟩
    · intro hlen
      rw [hlu]
      by_cases h3 : g.current_level < 3
      · simp only [if_pos h3]
        rw [List.getElem?_set_ne hne, List.getElem?_set_self hlen]
      · simp only [if_neg h3]
        rw [List.getElem?_set_self hlen]
    · intro h3 hlen
      rw [hlu]
      simp only [if_pos h3]
      rw [List.getElem?_set_self]
      rw [List.length_set]
      exact hlen
    · intro hact
      unfold V0.stateCheck
      simp only [if_pos hcol, if_pos hact]
  · intro g pl goal hcol hcl
    have hne : g.current_level ≠ g.current_level - 1 := by omega
    have hlu : (Delta.stateCheck g pl goal).level_unlocked =
        (if g.current_level < 5 then
          (g.level_unlocked.set (g.current_level - 1) true).set g.current_level true
        else g.level_unlocked.set (g.current_level - 1) true) := by
      unfold Delta.stateCheck
      by_cases ha : pl.active = true <;> by_cases hd : pl.dying = true <;>
        simp [hcol, ha, hd]
    refine ⟨?_, ?_, ?_⟩
    · intro hlen
      rw [hlu]
      by_cases h5 : g.current_level < 5
      · simp only [if_pos h5]
        rw [List.getElem?_set_ne hne, List.getElem?_set_self hlen]
      · simp only [if_neg h5]
        rw [List.getElem?_set_self hlen]
    · intro h5 hlen
      rw [hlu]
      simp only [if_pos h5]
      rw [List.getElem?_set_self]
      rw [List.length_set]
      exact hlen
    · intro hact
      have hno : ¬ (¬ pl.active = true ∧ ¬ pl.dying = true) := by
        rcases hact with h1 | h1
        · exact fun h => h.1 h1
        · exact fun h => h.2 h1
      unfold Delta.stateCheck
      simp only [if_pos hcol, if_neg hno]

theorem w_goal_overlap : collision (⟨600, 100, 8, 8⟩ : Box) (⟨600, 96, 16, 32⟩ : Box) := by
  norm_num [collision]

/-- Witness for C6 as amended: clearing level 1 with an active player
unlocks level 2 and ends in victory; the same overlap with an inactive
player still unlocks level 2. -/
theorem C6_amended_goal_victory_w :
    ((V0.stateCheck ⟨GameState.playing, 1, [true, false, false]⟩
      ⟨600, 100, 8, 8, 0, false, 1, 0, 0, 3, 0, true⟩ ⟨600, 96, 16, 32⟩).state =
      GameState.victory ∧
    (V0.stateCheck ⟨GameState.playing, 1, [true, false, false]⟩
      ⟨600, 100, 8, 8, 0, false, 1, 0, 0, 3, 0, true⟩ ⟨600, 96, 16, 32⟩).level_unlocked[1]? =
      some true) ∧
    (V0.stateCheck ⟨GameState.playing, 1, [true, false, false]⟩
      ⟨600, 100, 8, 8, 0, false, 1, 0, 0, 0, 0, false⟩ ⟨600, 96, 16, 32⟩).level_unlocked[1]? =
      some true :=
  ⟨⟨(C6_amended_goal_victory.1 ⟨GameState.playing, 1, [true, false, false]⟩
      ⟨600, 100, 8, 8, 0, false, 1, 0, 0, 3, 0, true⟩ ⟨600, 96, 16, 32⟩
      w_goal_overlap (by decide)).2.2 rfl,
    (C6_amended_goal_victory.1 ⟨GameState.playing, 1, [true, false, false]⟩
      ⟨600, 100, 8, 8, 0, false, 1, 0, 0, 3, 0, true⟩ ⟨600, 96, 16, 32⟩
      w_goal_overlap (by decide)).2.1 (by decide) (by decide)⟩,
   (C6_amended_goal_victory.1 ⟨GameState.playing, 1, [true, false, false]⟩
      ⟨600, 100, 8, 8, 0, false, 1, 0, 0, 0, 0, false⟩ ⟨600, 96, 16, 32⟩
      w_goal_overlap (by decide)).2.1 (by decide) (by decide)⟩
/-- Counterexample to claim C7: a playing frame in which the player both
overlaps the Goal and is inactive (with the dying flag clear in the
extended variant) ends in game_over, not victory. -/
theorem C7_counterexample :
    collision (⟨900, 100, 8, 8, 0, false, 1, 0, 0, 0, 0, false, false, false, 0⟩ :
      Delta.Player).box ⟨900, 96, 16, 32⟩ ∧
    (⟨900, 100, 8, 8, 0, false, 1, 0, 0, 0, 0, false, false, false, 0⟩ :
      Delta.Player).active = false ∧
    (Delta.stateCheck ⟨GameState.playing, 2, [true, true, false, false, false]⟩
      ⟨900, 100, 8, 8, 0, false, 1, 0, 0, 0, 0, false, false, false, 0⟩
      ⟨900, 96, 16, 32⟩).state = GameState.game_over ∧
    GameState.game_over ≠ GameState.victory := by
  refine ⟨by norm_num [collision, Delta.Player.box], rfl, ?_, by decide⟩
  norm_num [Delta.stateCheck, collision, Delta.Player.box]

/-- Claim C7 as amended: while playing, the frame ends in game_over
exactly when the player is inactive at the check (extended variant:
inactive with the dying flag clear), regardless of goal overlap — in
particular a frame in which the player both overlaps the Goal and is
inactive ends in game_over, the later check overwriting the victory
transition; and in the extended variant a fatal non-stomp enemy contact
does not deactivate the player but starts the dying animation, so the
game-over transition is not taken the moment lives reach 0. -/
theorem C7_amended_game_over :
    (∀ (g : GameData) (pl : V0.Player) (goal : Box),
      g.state = GameState.playing →
      ((V0.stateCheck g pl goal).state = GameState.game_over ↔ pl.active = false)) ∧
    (∀ (g : GameData) (pl : Delta.Player) (goal : Box),
      g.state = GameState.playing →
      ((Delta.stateCheck g pl goal).state = GameState.game_over ↔
        (pl.active = false ∧ pl.dying = false))) ∧
    (∀ (s : Delta.Player) (e : Enemy), e.active = true → collision s.box e.box →
      ¬ (s.vel_y > 0 ∧ s.y < e.y) → s.invincible ≤ 0 → s.lives ≤ 1 →
      ((Delta.enemyStep s e).1.active = s.active ∧
       (Delta.enemyStep s e).1.dying = true)) := by
  refine ⟨?_, ?_, ?_⟩
  · intro g pl goal hg
    unfold V0.stateCheck
    by_cases hc : collision pl.box goal <;>
      by_cases ha : pl.active = true <;>
      simp [hc, ha, hg]
  · intro g pl goal hg
    unfold Delta.stateCheck
    by_cases hc : collision pl.box goal <;>
      by_cases ha : pl.active = true <;>
      by_cases hd : pl.dying = true <;>
      simp [hc, ha, hd, hg]
  · intro s e hea hcol hnst hinv hlv
    have hcond : e.active = true ∧ collision s.box e.box := ⟨hea, hcol⟩
    have hl : s.lives - 1 ≤ 0 := by omega
    unfold Delta.enemyStep
    rw [if_pos hcond, if_neg hnst, if_pos hinv]
    simp [hl]

/-- Witness for C7 as amended: an inactive non-dying player in a playing
frame yields game_over, and a fatal contact at one life sets the dying
flag while leaving the player active. -/
theorem C7_amended_game_over_w :
    ((V0.stateCheck ⟨GameState.playing, 1, [true, false, false]⟩
        ⟨20, 200, 8, 8, 0, false, 1, 0, 0, 0, 0, false⟩ ⟨600, 96, 16, 32⟩).state =
      GameState.game_over ↔
        (⟨20, 200, 8, 8, 0, false, 1, 0, 0, 0, 0, false⟩ : V0.Player).active = false) ∧
    ((Delta.enemyStep ⟨0, 0, 8, 8, 0, false, 1, 0, 0, 1, 0, true, false, false, 0⟩
        ⟨0, 4, 8, 8, -1, 1, true, 0⟩).1.active = true ∧
     (Delta.enemyStep ⟨0, 0, 8, 8, 0, false, 1, 0, 0, 1, 0, true, false, false, 0⟩
        ⟨0, 4, 8, 8, -1, 1, true, 0⟩).1.dying = true) :=
  ⟨C7_amended_game_over.1 ⟨GameState.playing, 1, [true, false, false]⟩
      ⟨20, 200, 8, 8, 0, false, 1, 0, 0, 0, 0, false⟩ ⟨600, 96, 16, 32⟩ rfl,
   C7_amended_game_over.2.2 ⟨0, 0, 8, 8, 0, false, 1, 0, 0, 1, 0, true, false, false, 0⟩
      ⟨0, 4, 8, 8, -1, 1, true, 0⟩ rfl w_overlap_low (by decide) (by decide) (by decide)⟩

-- Supporting lemmas for the coin-collection scan: Python iterates over
-- the snapshot coins[:] while calling coins.remove on the live list.

theorem V0_coinLoop_skip (c : Coin) :
    ∀ (snap : List Coin) (s : V0.Player) (live : List Coin),
      ¬ collision s.box c.box →
      V0.coinLoop s snap (c :: live) =
        ((V0.coinLoop s snap live).1, c :: (V0.coinLoop s snap live).2) := by
  intro snap
  induction snap with
  | nil =>
    intro s live hc
    rfl
  | cons d t ih =>
    intro s live hc
    by_cases hov : collision s.box d.box
    · have hcd : c ≠ d := by
        intro h
        rw [h] at hc
        exact hc hov
      have hne : ¬ (c == d) = true := by simpa using hcd
      simp only [V0.coinLoop, if_pos hov, List.erase_cons_tail hne]
      exact ih _ _ hc
    · simp only [V0.coinLoop, if_neg hov]
      exact ih _ _ hc

theorem V0_coinLoop_spec :
    ∀ (l : List Coin) (s : V0.Player),
      (V0.coinLoop s l l).1.coins =
          s.coins + (l.countP (fun c => decide (collision s.box c.box)) : ℤ) ∧
      (V0.coinLoop s l l).2 = l.filter (fun c => ! decide (collision s.box c.box)) := by
  intro l
  induction l with
  | nil =>
    intro s
    simp [V0.coinLoop]
  | cons c t ih =>
    intro s
    by_cases hov : collision s.box c.box
    · simp only [V0.coinLoop, if_pos hov, List.erase_cons_head]
      obtain ⟨ih1, ih2⟩ := ih {s with coins := s.coins + 1}
      have hbox : ({s with coins := s.coins + 1} : V0.Player).box = s.box := rfl
      simp only [hbox] at ih1 ih2
      refine ⟨?_, ?_⟩
      · rw [ih1, List.countP_cons]
        simp only [hov, decide_True, if_true]
        push_cast
        ring
      · rw [ih2, List.filter_cons]
        simp [hov]
    · simp only [V0.coinLoop, if_neg hov]
      rw [V0_coinLoop_skip c t s t hov]
      obtain ⟨ih1, ih2⟩ := ih s
      refine ⟨?_, ?_⟩
      · simpa [List.countP_cons, hov] using ih1
      · rw [List.filter_cons]
        simp [hov, ih2]

theorem Delta_coinPickup_box (s : Delta.Player) :
    (Delta.coinPickup s).box = s.box := by
  by_cases h : (s.coins + 1) % 10 = 0 <;>
    simp [Delta.coinPickup, Delta.Player.box, h]

theorem Delta_coinPickup_coins (s : Delta.Player) :
    (Delta.coinPickup s).coins = s.coins + 1 := by
  by_cases h : (s.coins + 1) % 10 = 0 <;>
    simp [Delta.coinPickup, h]

theorem Delta_coinLoop_skip (c : Coin) :
    ∀ (snap : List Coin) (s : Delta.Player) (live : List Coin),
      ¬ collision s.box c.box →
      Delta.coinLoop s snap (c :: live) =
        ((Delta.coinLoop s snap live).1, c :: (Delta.coinLoop s snap live).2) := by
  intro snap
  induction snap with
  | nil =>
    intro s live hc
    rfl
  | cons d t ih =>
    intro s live hc
    by_cases hov : collision s.box d.box
    · have hcd : c ≠ d := by
        intro h
        rw [h] at hc
        exact hc hov
      have hne : ¬ (c == d) = true := by simpa using hcd
      simp only [Delta.coinLoop, if_pos hov, List.erase_cons_tail hne]
      refine ih _ _ ?_
      rw [Delta_coinPickup_box]
      exact hc
    · simp only [Delta.coinLoop, if_neg hov]
      exact ih _ _ hc

theorem Delta_coinLoop_spec :
    ∀ (l : List Coin) (s : Delta.Player),
      (Delta.coinLoop s l l).1.coins =
          s.coins + (l.countP (fun c => decide (collision s.box c.box)) : ℤ) ∧
      (Delta.coinLoop s l l).2 = l.filter (fun c => ! decide (collision s.box c.box)) := by
  intro l
  induction l with
  | nil =>
    intro s
    simp [Delta.coinLoop]
  | cons c t ih =>
    intro s
    by_cases hov : collision s.box c.box
    · simp only [Delta.coinLoop, if_pos hov, List.erase_cons_head]
      obtain ⟨ih1, ih2⟩ := ih (Delta.coinPickup s)
      simp only [Delta_coinPickup_box, Delta_coinPickup_coins] at ih1 ih2
      refine ⟨?_, ?_⟩
      · rw [ih1, List.countP_cons]
        simp only [hov, decide_True, if_true]
        push_cast
        ring
      · rw [ih2, List.filter_cons]
        simp [hov]
    · simp only [Delta.coinLoop, if_neg hov]
      rw [Delta_coinLoop_skip c t s t hov]
      obtain ⟨ih1, ih2⟩ := ih s
      refine ⟨?_, ?_⟩
      · simpa [List.countP_cons, hov] using ih1
      · rw [List.filter_cons]
        simp [hov, ih2]

/-- Claim C4: during one player update pass every coin overlapping the
player is removed exactly once and counted exactly once: the resulting
coin collection is exactly the non-overlapping coins (so removal during
the scan never skips or double-processes an entry), the coin count grows
by exactly the number of overlapping coins, and no coin left in the
collection overlaps the player, so no removed coin can be picked up on a
later pass.  Stated for both variants. -/
theorem C4_coin_pickup_exact :
    (∀ (s : V0.Player) (l : List Coin),
      (V0.coinLoop s l l).1.coins =
          s.coins + (l.countP (fun c => decide (collision s.box c.box)) : ℤ) ∧
      (V0.coinLoop s l l).2 = l.filter (fun c => ! decide (collision s.box c.box)) ∧
      ∀ c ∈ (V0.coinLoop s l l).2, ¬ collision s.box c.box) ∧
    (∀ (s : Delta.Player) (l : List Coin),
      (Delta.coinLoop s l l).1.coins =
          s.coins + (l.countP (fun c => decide (collision s.box c.box)) : ℤ) ∧
      (Delta.coinLoop s l l).2 = l.filter (fun c => ! decide (collision s.box c.box)) ∧
      ∀ c ∈ (Delta.coinLoop s l l).2, ¬ collision s.box c.box) := by
  constructor
  · intro s l
    obtain ⟨h1, h2⟩ := V0_coinLoop_spec l s
    refine ⟨h1, h2, ?_⟩
    intro c hc
    rw [h2] at hc
    simpa using (List.mem_filter.mp hc).2
  · intro s l
    obtain ⟨h1, h2⟩ := Delta_coinLoop_spec l s
    refine ⟨h1, h2, ?_⟩
    intro c hc
    rw [h2] at hc
    simpa using (List.mem_filter.mp hc).2

-- Field-preservation lemmas for the clientv0sml update phases, used to
-- track the landing state and the invincibility counter through a tick.

theorem V0_inputStep_pres (dx : ℚ) (s : V0.Player) :
    (V0.inputStep dx s).height = s.height ∧
    (V0.inputStep dx s).invincible = s.invincible := by
  by_cases h : dx ≠ 0 <;> simp [V0.inputStep, h]

theorem V0_horizStep_pres (dx : ℚ) (s : V0.Player) (p : Box) :
    (V0.horizStep dx s p).height = s.height ∧
    (V0.horizStep dx s p).invincible = s.invincible := by
  unfold V0.horizStep
  by_cases h1 : collision s.box p
  · rw [if_pos h1]
    by_cases h2 : dx > 0 <;> simp [h2]
  · rw [if_neg h1]
    exact ⟨rfl, rfl⟩

theorem V0_horizPhase_pres :
    ∀ (ps : List Box) (s : V0.Player) (dx : ℚ),
      (V0.horizPhase dx s ps).height = s.height ∧
      (V0.horizPhase dx s ps).invincible = s.invincible := by
  intro ps
  induction ps with
  | nil =>
    intro s dx
    exact ⟨rfl, rfl⟩
  | cons p t ih =>
    intro s dx
    obtain ⟨h1, h2⟩ := V0_horizStep_pres dx s p
    obtain ⟨t1, t2⟩ := ih (V0.horizStep dx s p) dx
    exact ⟨t1.trans h1, t2.trans h2⟩

theorem V0_preVertical_pres (s : V0.Player) (dx : ℚ) (ps : List Box) :
    (V0.preVertical s dx ps).height = s.height ∧
    (V0.preVertical s dx ps).invincible = s.invincible := by
  obtain ⟨h1, h2⟩ := V0_horizPhase_pres ps (V0.inputStep dx s) dx
  obtain ⟨g1, g2⟩ := V0_inputStep_pres dx s
  exact ⟨h1.trans g1, h2.trans g2⟩

theorem V0_vertStep_skip (s : V0.Player) (p : Box) (h : ¬ collision s.box p) :
    V0.vertStep s p = s := by
  unfold V0.vertStep
  rw [if_neg h]

theorem V0_vertStep_zero (s : V0.Player) (p : Box) (h : s.vel_y = 0) :
    V0.vertStep s p = s := by
  unfold V0.vertStep
  by_cases hc : collision s.box p <;> simp [hc, h]

theorem V0_vertStep_pres (s : V0.Player) (p : Box) :
    (V0.vertStep s p).height = s.height ∧
    (V0.vertStep s p).invincible = s.invincible := by
  unfold V0.vertStep
  by_cases h1 : collision s.box p
  · rw [if_pos h1]
    by_cases h2 : s.vel_y > 0
    · simp [h2]
    · by_cases h3 : s.vel_y < 0 <;> simp [h2, h3]
  · rw [if_neg h1]
    exact ⟨rfl, rfl⟩

theorem V0_vertPhase_skip :
    ∀ (l : List Box) (s : V0.Player), (∀ q ∈ l, ¬ collision s.box q) →
      V0.vertPhase s l = s := by
  intro l
  induction l with
  | nil =>
    intro s h
    rfl
  | cons q t ih =>
    intro s h
    have hq : V0.vertStep s q = s := V0_vertStep_skip s q (h q (List.mem_cons_self q t))
    show List.foldl V0.vertStep (V0.vertStep s q) t = s
    rw [hq]
    exact ih s fun r hr => h r (List.mem_cons_of_mem q hr)

theorem V0_vertPhase_zero :
    ∀ (l : List Box) (s : V0.Player), s.vel_y = 0 → V0.vertPhase s l = s := by
  intro l
  induction l with
  | nil =>
    intro s h
    rfl
  | cons q t ih =>
    intro s h
    have hq : V0.vertStep s q = s := V0_vertStep_zero s q h
    show List.foldl V0.vertStep (V0.vertStep s q) t = s
    rw [hq]
    exact ih s h

theorem V0_vertPhase_land (l1 : List Box) (p : Box) (l2 : List Box) (s : V0.Player)
    (hskip : ∀ q ∈ l1, ¬ collision s.box q) (hcol : collision s.box p)
    (hvel : s.vel_y > 0) :
    V0.vertPhase s (l1 ++ p :: l2) =
      {s with y := p.y - s.height, vel_y := 0, jumping := false} := by
  unfold V0.vertPhase
  rw [List.foldl_append]
  have h1 : List.foldl V0.vertStep s l1 = s := V0_vertPhase_skip l1 s hskip
  rw [h1, List.foldl_cons]
  have h2 : V0.vertStep s p = {s with y := p.y - s.height, vel_y := 0, jumping := false} := by
    unfold V0.vertStep
    rw [if_pos hcol, if_pos hvel]
  rw [h2]
  exact V0_vertPhase_zero l2 _ rfl

theorem V0_enemyStep_pres (s : V0.Player) (e : Enemy) :
    (V0.enemyStep s e).1.y = s.y ∧ (V0.enemyStep s e).1.jumping = s.jumping ∧
    (V0.enemyStep s e).1.height = s.height ∧
    ((V0.enemyStep s e).1.invincible = s.invincible ∨
      (V0.enemyStep s e).1.invincible = 60) := by
  unfold V0.enemyStep
  by_cases h1 : e.active = true ∧ collision s.box e.box
  · rw [if_pos h1]
    by_cases h2 : s.vel_y > 0 ∧ s.y < e.y
    · rw [if_pos h2]
      exact ⟨rfl, rfl, rfl, Or.inl rfl⟩
    · rw [if_neg h2]
      by_cases h3 : s.invincible ≤ 0
      · rw [if_pos h3]
        by_cases h4 : s.lives - 1 ≤ 0 <;> simp [h4]
      · rw [if_neg h3]
        exact ⟨rfl, rfl, rfl, Or.inl rfl⟩
  · rw [if_neg h1]
    exact ⟨rfl, rfl, rfl, Or.inl rfl⟩

theorem V0_enemyStep_vel0 (s : V0.Player) (e : Enemy) (h : s.vel_y = 0) :
    (V0.enemyStep s e).1.vel_y = 0 := by
  have hns : ¬ (s.vel_y > 0 ∧ s.y < e.y) := by
    rintro ⟨h1, h2⟩
    rw [h] at h1
    exact lt_irrefl 0 h1
  unfold V0.enemyStep
  by_cases h1 : e.active = true ∧ collision s.box e.box
  · rw [if_pos h1, if_neg hns]
    by_cases h3 : s.invincible ≤ 0
    · rw [if_pos h3]
      by_cases h4 : s.lives - 1 ≤ 0 <;> simp [h4, h]
    · rw [if_neg h3]
      exact h
  · rw [if_neg h1]
    exact h

theorem V0_enemyPhase_pres :
    ∀ (es : List Enemy) (s : V0.Player),
      (V0.enemyPhase s es).1.y = s.y ∧
      (V0.enemyPhase s es).1.jumping = s.jumping ∧
      (V0.enemyPhase s es).1.height = s.height ∧
      ((V0.enemyPhase s es).1.invincible = s.invincible ∨
        (V0.enemyPhase s es).1.invincible = 60) := by
  intro es
  induction es with
  | nil =>
    intro s
    exact ⟨rfl, rfl, rfl, Or.inl rfl⟩
  | cons e t ih =>
    intro s
    obtain ⟨hy, hj, hh, hi⟩ := V0_enemyStep_pres s e
    obtain ⟨ty, tj, th, ti⟩ := ih (V0.enemyStep s e).1
    refine ⟨?_, ?_, ?_, ?_⟩
    · show (V0.enemyPhase (V0.enemyStep s e).1 t).1.y = s.y
      rw [ty, hy]
    · show (V0.enemyPhase (V0.enemyStep s e).1 t).1.jumping = s.jumping
      rw [tj, hj]
    · show (V0.enemyPhase (V0.enemyStep s e).1 t).1.height = s.height
      rw [th, hh]
    · show (V0.enemyPhase (V0.enemyStep s e).1 t).1.invincible = s.invincible ∨
        (V0.enemyPhase (V0.enemyStep s e).1 t).1.invincible = 60
      rcases ti with ti | ti
      · rw [ti]
        exact hi
      · exact Or.inr ti

theorem V0_enemyPhase_vel0 :
    ∀ (es : List Enemy) (s : V0.Player), s.vel_y = 0 →
      (V0.enemyPhase s es).1.vel_y = 0 := by
  intro es
  induction es with
  | nil =>
    intro s h
    exact h
  | cons e t ih =>
    intro s h
    show (V0.enemyPhase (V0.enemyStep s e).1 t).1.vel_y = 0
    exact ih _ (V0_enemyStep_vel0 s e h)

theorem V0_coinLoop_pres :
    ∀ (snap : List Coin) (s : V0.Player) (live : List Coin),
      (V0.coinLoop s snap live).1.y = s.y ∧
      (V0.coinLoop s snap live).1.vel_y = s.vel_y ∧
      (V0.coinLoop s snap live).1.jumping = s.jumping ∧
      (V0.coinLoop s snap live).1.height = s.height ∧
      (V0.coinLoop s snap live).1.invincible = s.invincible := by
  intro snap
  induction snap with
  | nil =>
    intro s live
    exact ⟨rfl, rfl, rfl, rfl, rfl⟩
  | cons c t ih =>
    intro s live
    by_cases hov : collision s.box c.box
    · simp only [V0.coinLoop, if_pos hov]
      exact ih _ _
    · simp only [V0.coinLoop, if_neg hov]
      exact ih _ _

theorem V0_boundsStep_pres (s : V0.Player) :
    (V0.boundsStep s).y = s.y ∧ (V0.boundsStep s).vel_y = s.vel_y ∧
    (V0.boundsStep s).jumping = s.jumping ∧ (V0.boundsStep s).height = s.height ∧
    (V0.boundsStep s).invincible = s.invincible := by
  unfold V0.boundsStep
  by_cases h : s.y > GB_HEIGHT <;> simp [h]

-- Analogous field-preservation lemmas for the deltamarioland4k phases.

theorem Delta_inputStep_pres (dx : ℚ) (s : Delta.Player) :
    (Delta.inputStep dx s).height = s.height ∧
    (Delta.inputStep dx s).invincible = s.invincible := by
  by_cases h : dx ≠ 0 <;> simp [Delta.inputStep, h]

theorem Delta_horizStep_pres (dx : ℚ) (s : Delta.Player) (p : Box) :
    (Delta.horizStep dx s p).height = s.height ∧
    (Delta.horizStep dx s p).invincible = s.invincible := by
  unfold Delta.horizStep
  by_cases h1 : collision s.box p
  · rw [if_pos h1]
    by_cases h2 : dx > 0 <;> simp [h2]
  · rw [if_neg h1]
    exact ⟨rfl, rfl⟩

theorem Delta_horizPhase_pres :
    ∀ (ps : List Box) (s : Delta.Player) (dx : ℚ),
      (Delta.horizPhase dx s ps).height = s.height ∧
      (Delta.horizPhase dx s ps).invincible = s.invincible := by
  intro ps
  induction ps with
  | nil =>
    intro s dx
    exact ⟨rfl, rfl⟩
  | cons p t ih =>
    intro s dx
    obtain ⟨h1, h2⟩ := Delta_horizStep_pres dx s p
    obtain ⟨t1, t2⟩ := ih (Delta.horizStep dx s p) dx
    exact ⟨t1.trans h1, t2.trans h2⟩

theorem Delta_preVertical_pres (s : Delta.Player) (dx : ℚ) (ps : List Box) :
    (Delta.preVertical s dx ps).height = s.height ∧
    (Delta.preVertical s dx ps).invincible = s.invincible := by
  obtain ⟨h1, h2⟩ := Delta_horizPhase_pres ps (Delta.inputStep dx s) dx
  obtain ⟨g1, g2⟩ := Delta_inputStep_pres dx s
  exact ⟨h1.trans g1, h2.trans g2⟩

theorem Delta_vertStep_skip (s : Delta.Player) (p : Box) (h : ¬ collision s.box p) :
    Delta.vertStep s p = s := by
  unfold Delta.vertStep
  rw [if_neg h]

theorem Delta_vertStep_zero (s : Delta.Player) (p : Box) (h : s.vel_y = 0) :
    Delta.vertStep s p = s := by
  unfold Delta.vertStep
  by_cases hc : collision s.box p <;> simp [hc, h]

theorem Delta_vertStep_pres (s : Delta.Player) (p : Box) :
    (Delta.vertStep s p).height = s.height ∧
    (Delta.vertStep s p).invincible = s.invincible := by
  unfold Delta.vertStep
  by_cases h1 : collision s.box p
  · rw [if_pos h1]
    by_cases h2 : s.vel_y > 0
    · simp [h2]
    · by_cases h3 : s.vel_y < 0 <;> simp [h2, h3]
  · rw [if_neg h1]
    exact ⟨rfl, rfl⟩

theorem Delta_vertPhase_skip :
    ∀ (l : List Box) (s : Delta.Player), (∀ q ∈ l, ¬ collision s.box q) →
      Delta.vertPhase s l = s := by
  intro l
  induction l with
  | nil =>
    intro s h
    rfl
  | cons q t ih =>
    intro s h
    have hq : Delta.vertStep s q = s := Delta_vertStep_skip s q (h q (List.mem_cons_self q t))
    show List.foldl Delta.vertStep (Delta.vertStep s q) t = s
    rw [hq]
    exact ih s fun r hr => h r (List.mem_cons_of_mem q hr)

theorem Delta_vertPhase_zero :
    ∀ (l : List Box) (s : Delta.Player), s.vel_y = 0 → Delta.vertPhase s l = s := by
  intro l
  induction l with
  | nil =>
    intro s h
    rfl
  | cons q t ih =>
    intro s h
    have hq : Delta.vertStep s q = s := Delta_vertStep_zero s q h
    show List.foldl Delta.vertStep (Delta.vertStep s q) t = s
    rw [hq]
    exact ih s h

theorem Delta_vertPhase_land (l1 : List Box) (p : Box) (l2 : List Box)
    (s : Delta.Player)
    (hskip : ∀ q ∈ l1, ¬ collision s.box q) (hcol : collision s.box p)
    (hvel : s.vel_y > 0) :
    Delta.vertPhase s (l1 ++ p :: l2) =
      {s with y := p.y - s.height, vel_y := 0, jumping := false} := by
  unfold Delta.vertPhase
  rw [List.foldl_append]
  have h1 : List.foldl Delta.vertStep s l1 = s := Delta_vertPhase_skip l1 s hskip
  rw [h1, List.foldl_cons]
  have h2 : Delta.vertStep s p =
      {s with y := p.y - s.height, vel_y := 0, jumping := false} := by
    unfold Delta.vertStep
    rw [if_pos hcol, if_pos hvel]
  rw [h2]
  exact Delta_vertPhase_zero l2 _ rfl

theorem Delta_enemyStep_pres (s : Delta.Player) (e : Enemy) :
    (Delta.enemyStep s e).1.y = s.y ∧ (Delta.enemyStep s e).1.jumping = s.jumping ∧
    (Delta.enemyStep s e).1.height = s.height ∧
    ((Delta.enemyStep s e).1.invincible = s.invincible ∨
      (Delta.enemyStep s e).1.invincible = 60) := by
  unfold Delta.enemyStep
  by_cases h1 : e.active = true ∧ collision s.box e.box
  · rw [if_pos h1]
    by_cases h2 : s.vel_y > 0 ∧ s.y < e.y
    · rw [if_pos h2]
      exact ⟨rfl, rfl, rfl, Or.inl rfl⟩
    · rw [if_neg h2]
      by_cases h3 : s.invincible ≤ 0
      · rw [if_pos h3]
        by_cases h4 : s.lives - 1 ≤ 0 <;> simp [h4]
      · rw [if_neg h3]
        exact ⟨rfl, rfl, rfl, Or.inl rfl⟩
  · rw [if_neg h1]
    exact ⟨rfl, rfl, rfl, Or.inl rfl⟩

theorem Delta_enemyStep_vel (s : Delta.Player) (e : Enemy)
    (h : s.vel_y = 0 ∨ (s.vel_y = -JUMP_STRENGTH * 0.5 ∧ 0 < s.invincible)) :
    (Delta.enemyStep s e).1.vel_y = 0 ∨
      ((Delta.enemyStep s e).1.vel_y = -JUMP_STRENGTH * 0.5 ∧
       0 < (Delta.enemyStep s e).1.invincible) := by
  have hns : ¬ (s.vel_y > 0 ∧ s.y < e.y) := by
    rintro ⟨h1, h2⟩
    rcases h with h0 | ⟨hneg, hinv⟩
    · rw [h0] at h1
      exact lt_irrefl 0 h1
    · rw [hneg] at h1
      norm_num [JUMP_STRENGTH] at h1
  unfold Delta.enemyStep
  by_cases h1 : e.active = true ∧ collision s.box e.box
  · rw [if_pos h1, if_neg hns]
    by_cases h3 : s.invincible ≤ 0
    · rw [if_pos h3]
      rcases h with h0 | ⟨hneg, hinv⟩
      · by_cases h4 : s.lives - 1 ≤ 0
        · simp [h4]
        · simp [h4, h0]
      · exact absurd hinv (by omega)
    · rw [if_neg h3]
      exact h
  · rw [if_neg h1]
    exact h

theorem Delta_enemyPhase_pres :
    ∀ (es : List Enemy) (s : Delta.Player),
      (Delta.enemyPhase s es).1.y = s.y ∧
      (Delta.enemyPhase s es).1.jumping = s.jumping ∧
      (Delta.enemyPhase s es).1.height = s.height ∧
      ((Delta.enemyPhase s es).1.invincible = s.invincible ∨
        (Delta.enemyPhase s es).1.invincible = 60) := by
  intro es
  induction es with
  | nil =>
    intro s
    exact ⟨rfl, rfl, rfl, Or.inl rfl⟩
  | cons e t ih =>
    intro s
    obtain ⟨hy, hj, hh, hi⟩ := Delta_enemyStep_pres s e
    obtain ⟨ty, tj, th, ti⟩ := ih (Delta.enemyStep s e).1
    refine ⟨?_, ?_, ?_, ?_⟩
    · show (Delta.enemyPhase (Delta.enemyStep s e).1 t).1.y = s.y
      rw [ty, hy]
    · show (Delta.enemyPhase (Delta.enemyStep s e).1 t).1.jumping = s.jumping
      rw [tj, hj]
    · show (Delta.enemyPhase (Delta.enemyStep s e).1 t).1.height = s.height
      rw [th, hh]
    · show (Delta.enemyPhase (Delta.enemyStep s e).1 t).1.invincible = s.invincible ∨
        (Delta.enemyPhase (Delta.enemyStep s e).1 t).1.invincible = 60
      rcases ti with ti | ti
      · rw [ti]
        exact hi
      · exact Or.inr ti

theorem Delta_enemyPhase_vel :
    ∀ (es : List Enemy) (s : Delta.Player),
      (s.vel_y = 0 ∨ (s.vel_y = -JUMP_STRENGTH * 0.5 ∧ 0 < s.invincible)) →
      ((Delta.enemyPhase s es).1.vel_y = 0 ∨
        ((Delta.enemyPhase s es).1.vel_y = -JUMP_STRENGTH * 0.5 ∧
         0 < (Delta.enemyPhase s es).1.invincible)) := by
  intro es
  induction es with
  | nil =>
    intro s h
    exact h
  | cons e t ih =>
    intro s h
    show (Delta.enemyPhase (Delta.enemyStep s e).1 t).1.vel_y = 0 ∨ _
    exact ih _ (Delta_enemyStep_vel s e h)

theorem Delta_coinPickup_pres (s : Delta.Player) :
    (Delta.coinPickup s).y = s.y ∧ (Delta.coinPickup s).vel_y = s.vel_y ∧
    (Delta.coinPickup s).jumping = s.jumping ∧
    (Delta.coinPickup s).height = s.height ∧
    (Delta.coinPickup s).invincible = s.invincible := by
  by_cases h : (s.coins + 1) % 10 = 0 <;> simp [Delta.coinPickup, h]

theorem Delta_coinLoop_pres :
    ∀ (snap : List Coin) (s : Delta.Player) (live : List Coin),
      (Delta.coinLoop s snap live).1.y = s.y ∧
      (Delta.coinLoop s snap live).1.vel_y = s.vel_y ∧
      (Delta.coinLoop s snap live).1.jumping = s.jumping ∧
      (Delta.coinLoop s snap live).1.height = s.height ∧
      (Delta.coinLoop s snap live).1.invincible = s.invincible := by
  intro snap
  induction snap with
  | nil =>
    intro s live
    exact ⟨rfl, rfl, rfl, rfl, rfl⟩
  | cons c t ih =>
    intro s live
    by_cases hov : collision s.box c.box
    · simp only [Delta.coinLoop, if_pos hov]
      obtain ⟨t1, t2, t3, t4, t5⟩ := ih (Delta.coinPickup s) (live.erase c)
      obtain ⟨p1, p2, p3, p4, p5⟩ := Delta_coinPickup_pres s
      exact ⟨t1.trans p1, t2.trans p2, t3.trans p3, t4.trans p4, t5.trans p5⟩
    · simp only [Delta.coinLoop, if_neg hov]
      exact ih _ _

theorem Delta_boundsStep_pres (s : Delta.Player) :
    (Delta.boundsStep s).y = s.y ∧ (Delta.boundsStep s).vel_y = s.vel_y ∧
    (Delta.boundsStep s).jumping = s.jumping ∧
    (Delta.boundsStep s).height = s.height ∧
    (Delta.boundsStep s).invincible = s.invincible := by
  unfold Delta.boundsStep
  by_cases h1 : s.y > GB_HEIGHT
  · rw [if_pos h1]
    by_cases h2 : s.dying = true <;> simp [h2]
  · rw [if_neg h1]
    exact ⟨rfl, rfl, rfl, rfl, rfl⟩

theorem Delta_dyingStep_invincible (s : Delta.Player) :
    (Delta.dyingStep s).invincible = s.invincible := by
  unfold Delta.dyingStep
  by_cases h : s.death_timer + 1 > 60 ∨ s.y + (s.vel_y + GRAVITY * 0.5) > GB_HEIGHT + 20 <;>
    simp [h]

/-- Claim C2 as amended: for every active (and, in the extended variant,
non-dying) player, platform collection and entry velocity: on a tick in
which the player is falling after gravity and overlaps a platform when
vertical resolution begins, the tick ends with y exactly equal to
platform.y - player.height for the FIRST such overlapping platform in
collection order (landing zeroes vel_y, so no later platform re-snaps)
and the jumping flag cleared; vel_y ends at 0, except that in the
extended variant a fatal enemy contact later in the same tick leaves
vel_y = -JUMP_STRENGTH*0.5 (the death hop) instead. -/
theorem C2_amended_landing :
    (∀ (s : V0.Player) (dx : ℚ) (l1 l2 : List Box) (p : Box)
        (enemies : List Enemy) (coins : List Coin),
      s.active = true →
      (∀ q ∈ l1, ¬ collision (V0.preVertical s dx (l1 ++ p :: l2)).box q) →
      collision (V0.preVertical s dx (l1 ++ p :: l2)).box p →
      (V0.preVertical s dx (l1 ++ p :: l2)).vel_y > 0 →
      ((V0.Player.move s dx (l1 ++ p :: l2) enemies coins).1.y = p.y - s.height ∧
       (V0.Player.move s dx (l1 ++ p :: l2) enemies coins).1.vel_y = 0 ∧
       (V0.Player.move s dx (l1 ++ p :: l2) enemies coins).1.jumping = false)) ∧
    (∀ (s : Delta.Player) (dx : ℚ) (l1 l2 : List Box) (p : Box)
        (enemies : List Enemy) (coins : List Coin),
      s.active = true → s.dying = false →
      (∀ q ∈ l1, ¬ collision (Delta.preVertical s dx (l1 ++ p :: l2)).box q) →
      collision (Delta.preVertical s dx (l1 ++ p :: l2)).box p →
      (Delta.preVertical s dx (l1 ++ p :: l2)).vel_y > 0 →
      ((Delta.Player.move s dx (l1 ++ p :: l2) enemies coins).1.y = p.y - s.height ∧
       (Delta.Player.move s dx (l1 ++ p :: l2) enemies coins).1.jumping = false ∧
       ((Delta.Player.move s dx (l1 ++ p :: l2) enemies coins).1.vel_y = 0 ∨
        (Delta.Player.move s dx (l1 ++ p :: l2) enemies coins).1.vel_y =
          -JUMP_STRENGTH * 0.5))) := by
  constructor
  · intro s dx l1 l2 p enemies coins hact hskip hcol hvel
    have hland := V0_vertPhase_land l1 p l2
      (V0.preVertical s dx (l1 ++ p :: l2)) hskip hcol hvel
    have hmove : V0.Player.move s dx (l1 ++ p :: l2) enemies coins =
        (V0.boundsStep (V0.coinLoop
            (V0.enemyPhase (V0.vertPhase (V0.preVertical s dx (l1 ++ p :: l2))
              (l1 ++ p :: l2)) enemies).1 coins coins).1,
         (V0.enemyPhase (V0.vertPhase (V0.preVertical s dx (l1 ++ p :: l2))
            (l1 ++ p :: l2)) enemies).2,
         (V0.coinLoop (V0.enemyPhase (V0.vertPhase (V0.preVertical s dx (l1 ++ p :: l2))
            (l1 ++ p :: l2)) enemies).1 coins coins).2) := by
      unfold V0.Player.move
      rw [if_pos hact]
    rw [hmove]
    dsimp only
    rw [hland]
    set s3 := ({V0.preVertical s dx (l1 ++ p :: l2) with
        y := p.y - (V0.preVertical s dx (l1 ++ p :: l2)).height,
        vel_y := 0, jumping := false} : V0.Player) with hs3
    obtain ⟨e1, e2, e3, _⟩ := V0_enemyPhase_pres enemies s3
    have ev : (V0.enemyPhase s3 enemies).1.vel_y = 0 :=
      V0_enemyPhase_vel0 enemies s3 rfl
    obtain ⟨c1, c2, c3, c4, _⟩ :=
      V0_coinLoop_pres coins (V0.enemyPhase s3 enemies).1 coins
    obtain ⟨b1, b2, b3, b4, _⟩ :=
      V0_boundsStep_pres (V0.coinLoop (V0.enemyPhase s3 enemies).1 coins coins).1
    obtain ⟨hh, _⟩ := V0_preVertical_pres s dx (l1 ++ p :: l2)
    refine ⟨?_, ?_, ?_⟩
    · rw [b1, c1, e1, hs3]
      show p.y - (V0.preVertical s dx (l1 ++ p :: l2)).height = p.y - s.height
      rw [hh]
    · rw [b2, c2, ev]
    · rw [b3, c3, e2]
  · intro s dx l1 l2 p enemies coins hact hdy hskip hcol hvel
    have hnd : ¬ s.dying = true := by
      rw [hdy]
      exact Bool.false_ne_true
    have hland := Delta_vertPhase_land l1 p l2
      (Delta.preVertical s dx (l1 ++ p :: l2)) hskip hcol hvel
    have hmove : Delta.Player.move s dx (l1 ++ p :: l2) enemies coins =
        (Delta.boundsStep (Delta.coinLoop
            (Delta.enemyPhase (Delta.vertPhase (Delta.preVertical s dx (l1 ++ p :: l2))
              (l1 ++ p :: l2)) enemies).1 coins coins).1,
         (Delta.enemyPhase (Delta.vertPhase (Delta.preVertical s dx (l1 ++ p :: l2))
            (l1 ++ p :: l2)) enemies).2,
         (Delta.coinLoop (Delta.enemyPhase (Delta.vertPhase
            (Delta.preVertical s dx (l1 ++ p :: l2))
            (l1 ++ p :: l2)) enemies).1 coins coins).2) := by
      unfold Delta.Player.move
      rw [if_pos hact, if_neg hnd]
    rw [hmove]
    dsimp only
    rw [hland]
    set s3 := ({Delta.preVertical s dx (l1 ++ p :: l2) with
        y := p.y - (Delta.preVertical s dx (l1 ++ p :: l2)).height,
        vel_y := 0, jumping := false} : Delta.Player) with hs3
    obtain ⟨e1, e2, e3, _⟩ := Delta_enemyPhase_pres enemies s3
    have ev := Delta_enemyPhase_vel enemies s3 (Or.inl rfl)
    obtain ⟨c1, c2, c3, c4, _⟩ :=
      Delta_coinLoop_pres coins (Delta.enemyPhase s3 enemies).1 coins
    obtain ⟨b1, b2, b3, b4, _⟩ :=
      Delta_boundsStep_pres (Delta.coinLoop (Delta.enemyPhase s3 enemies).1 coins coins).1
    obtain ⟨hh, _⟩ := Delta_preVertical_pres s dx (l1 ++ p :: l2)
    refine ⟨?_, ?_, ?_⟩
    · rw [b1, c1, e1, hs3]
      show p.y - (Delta.preVertical s dx (l1 ++ p :: l2)).height = p.y - s.height
      rw [hh]
    · rw [b3, c3, e2]
    · rcases ev with hv | ⟨hv, _⟩
      · refine Or.inl ?_
        rw [b2, c2, hv]
      · refine Or.inr ?_
        rw [b2, c2, hv]

/-- Counterexample to claim C2: with two overlapping platforms the tick
does not end at the LAST overlapping platform's top: the first landing
zeroes vel_y so platform 2 (still overlapping when it is examined during
vertical resolution, conjunct 4) never re-snaps, and the final y stays
at platform 1's top (2, not 9 - 8 = 1); moreover a fatal enemy contact
in the same tick (extended variant) leaves vel_y = -2.25, not 0. -/
theorem C2_counterexample :
    ((⟨0, 0, 8, 8, 4.7, true, 1, 0, 0, 1, 0, true, false, false, 0⟩ :
        Delta.Player).active = true) ∧
    ((⟨0, 0, 8, 8, 4.7, true, 1, 0, 0, 1, 0, true, false, false, 0⟩ :
        Delta.Player).dying = false) ∧
    (Delta.preVertical ⟨0, 0, 8, 8, 4.7, true, 1, 0, 0, 1, 0, true, false, false, 0⟩ 0
      [⟨0, 10, 16, 16⟩, ⟨0, 9, 16, 16⟩]).vel_y > 0 ∧
    collision (Delta.vertStep (Delta.preVertical
        ⟨0, 0, 8, 8, 4.7, true, 1, 0, 0, 1, 0, true, false, false, 0⟩ 0
        [⟨0, 10, 16, 16⟩, ⟨0, 9, 16, 16⟩]) ⟨0, 10, 16, 16⟩).box ⟨0, 9, 16, 16⟩ ∧
    (Delta.Player.move ⟨0, 0, 8, 8, 4.7, true, 1, 0, 0, 1, 0, true, false, false, 0⟩ 0
      [⟨0, 10, 16, 16⟩, ⟨0, 9, 16, 16⟩] [⟨0, 2, 8, 8, -1, 1, true, 0⟩] []).1.y ≠
      (9 : ℚ) - 8 ∧
    (Delta.Player.move ⟨0, 0, 8, 8, 4.7, true, 1, 0, 0, 1, 0, true, false, false, 0⟩ 0
      [⟨0, 10, 16, 16⟩, ⟨0, 9, 16, 16⟩] [⟨0, 2, 8, 8, -1, 1, true, 0⟩] []).1.vel_y ≠ 0 := by
  refine ⟨rfl, rfl, ?_, ?_, ?_, ?_⟩ <;>
    norm_num [Delta.Player.move, Delta.preVertical, Delta.inputStep, Delta.horizPhase,
      Delta.horizStep, Delta.gravityStep, Delta.vertPhase, Delta.vertStep,
      Delta.enemyPhase, Delta.enemyStep, Delta.coinLoop, Delta.coinPickup,
      Delta.boundsStep, Delta.dyingStep, collision, Delta.Player.box, Enemy.box,
      GB_HEIGHT, GRAVITY, JUMP_STRENGTH]

theorem w_land_pre :
    collision (V0.preVertical ⟨0, 0, 8, 8, 4.7, true, 1, 0, 0, 3, 0, true⟩ 0
      ([] ++ (⟨0, 10, 16, 16⟩ : Box) :: [])).box ⟨0, 10, 16, 16⟩ ∧
    (V0.preVertical ⟨0, 0, 8, 8, 4.7, true, 1, 0, 0, 3, 0, true⟩ 0
      ([] ++ (⟨0, 10, 16, 16⟩ : Box) :: [])).vel_y > 0 := by
  norm_num [V0.preVertical, V0.inputStep, V0.horizPhase, V0.horizStep,
    V0.gravityStep, collision, V0.Player.box, GRAVITY]

/-- Witness for C2 as amended: a concrete fall onto a single platform. -/
theorem C2_amended_landing_w :
    (V0.Player.move ⟨0, 0, 8, 8, 4.7, true, 1, 0, 0, 3, 0, true⟩ 0
      ([] ++ (⟨0, 10, 16, 16⟩ : Box) :: []) [] []).1.y = (10 : ℚ) - 8 ∧
    (V0.Player.move ⟨0, 0, 8, 8, 4.7, true, 1, 0, 0, 3, 0, true⟩ 0
      ([] ++ (⟨0, 10, 16, 16⟩ : Box) :: []) [] []).1.vel_y = 0 ∧
    (V0.Player.move ⟨0, 0, 8, 8, 4.7, true, 1, 0, 0, 3, 0, true⟩ 0
      ([] ++ (⟨0, 10, 16, 16⟩ : Box) :: []) [] []).1.jumping = false :=
  C2_amended_landing.1 ⟨0, 0, 8, 8, 4.7, true, 1, 0, 0, 3, 0, true⟩ 0 [] []
    ⟨0, 10, 16, 16⟩ [] [] rfl (by simp) w_land_pre.1 w_land_pre.2

theorem V0_vertPhase_pres :
    ∀ (l : List Box) (s : V0.Player),
      (V0.vertPhase s l).height = s.height ∧
      (V0.vertPhase s l).invincible = s.invincible := by
  intro l
  induction l with
  | nil =>
    intro s
    exact ⟨rfl, rfl⟩
  | cons q t ih =>
    intro s
    obtain ⟨h1, h2⟩ := V0_vertStep_pres s q
    obtain ⟨t1, t2⟩ := ih (V0.vertStep s q)
    exact ⟨t1.trans h1, t2.trans h2⟩

theorem Delta_vertPhase_pres :
    ∀ (l : List Box) (s : Delta.Player),
      (Delta.vertPhase s l).height = s.height ∧
      (Delta.vertPhase s l).invincible = s.invincible := by
  intro l
  induction l with
  | nil =>
    intro s
    exact ⟨rfl, rfl⟩
  | cons q t ih =>
    intro s
    obtain ⟨h1, h2⟩ := Delta_vertStep_pres s q
    obtain ⟨t1, t2⟩ := ih (Delta.vertStep s q)
    exact ⟨t1.trans h1, t2.trans h2⟩

/-- Claim C10: the invincibility countdown is never decremented by the
update step — Player.move either keeps it or sets it to 60 — and is
decremented only by the draw step and only on frames in the visible
phase of the blink cycle (invincible % 6 >= 3); consequently a countdown
of 60 (which draw never decrements, 60 % 6 = 0 being in the invisible
phase) survives any number of draw frames, so the damage-immunity
window spans more than 60 update ticks. -/
theorem C10_invincibility_frames :
    (∀ (s : V0.Player) (dx : ℚ) (ps : List Box) (es : List Enemy) (cs : List Coin),
      (V0.Player.move s dx ps es cs).1.invincible = s.invincible ∨
      (V0.Player.move s dx ps es cs).1.invincible = 60) ∧
    (∀ (s : Delta.Player) (dx : ℚ) (ps : List Box) (es : List Enemy) (cs : List Coin),
      (Delta.Player.move s dx ps es cs).1.invincible = s.invincible ∨
      (Delta.Player.move s dx ps es cs).1.invincible = 60) ∧
    (∀ s : V0.Player, (V0.Player.draw_update s).invincible = s.invincible ∨
      ((V0.Player.draw_update s).invincible = s.invincible - 1 ∧
       0 < s.invincible ∧ 3 ≤ s.invincible % 6)) ∧
    (∀ s : Delta.Player, (Delta.Player.draw_update s).invincible = s.invincible ∨
      ((Delta.Player.draw_update s).invincible = s.invincible - 1 ∧
       0 < s.invincible ∧ 3 ≤ s.invincible % 6)) ∧
    (∀ (s : V0.Player) (n : ℕ), s.invincible = 60 →
      ((V0.Player.draw_update)^[n] s).invincible = 60) ∧
    (∀ (s : Delta.Player) (n : ℕ), s.invincible = 60 →
      ((Delta.Player.draw_update)^[n] s).invincible = 60) := by
  refine ⟨?_, ?_, ?_, ?_, ?_, ?_⟩
  · intro s dx ps es cs
    by_cases hact : s.active = true
    · have hmove : V0.Player.move s dx ps es cs =
          (V0.boundsStep (V0.coinLoop
              (V0.enemyPhase (V0.vertPhase (V0.preVertical s dx ps) ps) es).1 cs cs).1,
           (V0.enemyPhase (V0.vertPhase (V0.preVertical s dx ps) ps) es).2,
           (V0.coinLoop (V0.enemyPhase (V0.vertPhase (V0.preVertical s dx ps) ps) es).1
              cs cs).2) := by
        unfold V0.Player.move
        rw [if_pos hact]
      rw [hmove]
      dsimp only
      obtain ⟨_, hp⟩ := V0_preVertical_pres s dx ps
      obtain ⟨_, hv⟩ := V0_vertPhase_pres ps (V0.preVertical s dx ps)
      obtain ⟨_, _, _, he⟩ :=
        V0_enemyPhase_pres es (V0.vertPhase (V0.preVertical s dx ps) ps)
      obtain ⟨_, _, _, _, hc⟩ := V0_coinLoop_pres cs
        (V0.enemyPhase (V0.vertPhase (V0.preVertical s dx ps) ps) es).1 cs
      obtain ⟨_, _, _, _, hb⟩ := V0_boundsStep_pres (V0.coinLoop
        (V0.enemyPhase (V0.vertPhase (V0.preVertical s dx ps) ps) es).1 cs cs).1
      rw [hb, hc]
      rcases he with he | he
      · rw [he, hv, hp]
        exact Or.inl rfl
      · rw [he]
        exact Or.inr rfl
    · have hmove : V0.Player.move s dx ps es cs = (s, es, cs) := by
        unfold V0.Player.move
        rw [if_neg hact]
      rw [hmove]
      exact Or.inl rfl
  · intro s dx ps es cs
    by_cases hact : s.active = true
    · by_cases hd : s.dying = true
      · have hmove : Delta.Player.move s dx ps es cs = (Delta.dyingStep s, es, cs) := by
          unfold Delta.Player.move
          rw [if_pos hact, if_pos hd]
        rw [hmove]
        exact Or.inl (Delta_dyingStep_invincible s)
      · have hmove : Delta.Player.move s dx ps es cs =
            (Delta.boundsStep (Delta.coinLoop
                (Delta.enemyPhase (Delta.vertPhase (Delta.preVertical s dx ps) ps)
                  es).1 cs cs).1,
             (Delta.enemyPhase (Delta.vertPhase (Delta.preVertical s dx ps) ps) es).2,
             (Delta.coinLoop (Delta.enemyPhase (Delta.vertPhase
                (Delta.preVertical s dx ps) ps) es).1 cs cs).2) := by
          unfold Delta.Player.move
          rw [if_pos hact, if_neg hd]
        rw [hmove]
        dsimp only
        obtain ⟨_, hp⟩ := Delta_preVertical_pres s dx ps
        obtain ⟨_, hv⟩ := Delta_vertPhase_pres ps (Delta.preVertical s dx ps)
        obtain ⟨_, _, _, he⟩ :=
          Delta_enemyPhase_pres es (Delta.vertPhase (Delta.preVertical s dx ps) ps)
        obtain ⟨_, _, _, _, hc⟩ := Delta_coinLoop_pres cs
          (Delta.enemyPhase (Delta.vertPhase (Delta.preVertical s dx ps) ps) es).1 cs
        obtain ⟨_, _, _, _, hb⟩ := Delta_boundsStep_pres (Delta.coinLoop
          (Delta.enemyPhase (Delta.vertPhase (Delta.preVertical s dx ps) ps) es).1 cs cs).1
        rw [hb, hc]
        rcases he with he | he
        · rw [he, hv, hp]
          exact Or.inl rfl
        · rw [he]
          exact Or.inr rfl
    · have hmove : Delta.Player.move s dx ps es cs = (s, es, cs) := by
        unfold Delta.Player.move
        rw [if_neg hact]
      rw [hmove]
      exact Or.inl rfl
  · intro s
    unfold V0.Player.draw_update
    by_cases ha : s.active = true
    · rw [if_pos ha]
      by_cases h1 : s.invincible > 0
      · rw [if_pos h1]
        by_cases h2 : s.invincible % 6 < 3
        · rw [if_pos h2]
          exact Or.inl rfl
        · rw [if_neg h2]
          exact Or.inr ⟨rfl, h1, by omega⟩
      · rw [if_neg h1]
        exact Or.inl rfl
    · rw [if_neg ha]
      exact Or.inl rfl
  · intro s
    unfold Delta.Player.draw_update
    by_cases h0 : ¬ s.active = true ∧ ¬ s.dying = true
    · rw [if_pos h0]
      exact Or.inl rfl
    · rw [if_neg h0]
      by_cases h1 : s.invincible > 0 ∧ ¬ s.dying = true
      · rw [if_pos h1]
        by_cases h2 : s.invincible % 6 < 3
        · rw [if_pos h2]
          exact Or.inl rfl
        · rw [if_neg h2]
          exact Or.inr ⟨rfl, h1.1, by omega⟩
      · rw [if_neg h1]
        exact Or.inl rfl
  · intro s n h60
    have hfix : V0.Player.draw_update s = s := by
      unfold V0.Player.draw_update
      rw [h60]
      by_cases ha : s.active = true <;> simp [ha]
    rw [Function.iterate_fixed hfix n]
    exact h60
  · intro s n h60
    have hfix : Delta.Player.draw_update s = s := by
      unfold Delta.Player.draw_update
      rw [h60]
      by_cases h0 : ¬ s.active = true ∧ ¬ s.dying = true
      · rw [if_pos h0]
      · rw [if_neg h0]
        by_cases hd : s.dying = true <;> simp [hd]
    rw [Function.iterate_fixed hfix n]
    exact h60

/-- Witness for C10: a freshly damaged player (countdown 60) is still in
the immunity window after 61 draw frames. -/
theorem C10_invincibility_frames_w :
    ((V0.Player.draw_update)^[61]
      ⟨0, 0, 8, 8, 0, false, 1, 0, 60, 3, 0, true⟩).invincible = 60 :=
  C10_invincibility_frames.2.2.2.2.1 ⟨0, 0, 8, 8, 0, false, 1, 0, 60, 3, 0, true⟩ 61 rfl
